import Mathlib

/-!
Shallow embedding of the change-detection and notification-state-machine core
of a competition-tracking batch job (src/main.py), together with proofs of the
spec's claims about it.

Modelling conventions:
* Instants are integers (seconds); calendar dates are integer day numbers.
  The code compares `start_date`/`end_date` at date granularity and
  `registration_open` at sub-minute granularity, dividing seconds by 60; we
  mirror the division in `ℚ`.
* Python dicts keyed by competition id become association lists
  (`List (String × _)`) with first-match lookup; `dictSet` preserves the
  position of an existing key and appends a fresh one, as CPython dicts do.
* A timestamp field that the code reads with `.get` and then parses with
  `strptime` is a three-state value (`TsField`): absent (falsy), present but
  malformed (parse raises `ValueError`), or valid.  `start_date` is parsed
  outside any `try`, so a malformed value propagates as an exception; we model
  that with `Except Unit`.
* External collaborators (the WCA fetch, the per-competition occupancy lookup,
  the Discord/Telegram dispatchers) are parameters: the fetch result is a
  list, the occupancy lookup is `Comp → Option Nat`, each dispatcher is a
  boolean-returning function as in the source.
-/

/-- A timestamp field as read from a raw record: missing/falsy, present but
unparseable, or a valid instant (seconds). -/
inductive TsField where
  | absent
  | malformed
  | valid (t : Int)
deriving DecidableEq, Repr

/-- One competition record, with the fields the core logic reads. -/
structure Comp where
  id : String
  start_date : Option Int := none
  end_date : Option Int := none
  registration_open : TsField := .absent
  competitor_limit : Option Nat := none
deriving DecidableEq, Repr

/-- Entry of `registration_tracking.json`. -/
structure RegEntry where
  notified_upcoming : Bool := false
  notified_open : Bool := false
deriving DecidableEq, Repr

/-- Entry of `spots_tracking.json`. -/
structure SpotsEntry where
  notified : Bool := false
  last_count : Option Nat := none
  limit : Option Nat := none
deriving DecidableEq, Repr

abbrev RegTracking := List (String × RegEntry)

abbrev SpotsTracking := List (String × SpotsEntry)

/-- First-match lookup in an id-keyed association list (Python `dict` read). -/
def dictGet {α : Type} (m : List (String × α)) (k : String) : Option α :=
  match m with
  | [] => none
  | (k', v) :: rest => if k' = k then some v else dictGet rest k

/-- Python `dict` write: replace in place, or append a fresh key. -/
def dictSet {α : Type} (m : List (String × α)) (k : String) (v : α) :
    List (String × α) :=
  match m with
  | [] => [(k, v)]
  | (k', v') :: rest =>
    if k' = k then (k, v) :: rest else (k', v') :: dictSet rest k v

/-- `tracking.get(comp_id, {})` with per-key defaults. -/
def regLookup (tr : RegTracking) (k : String) : RegEntry :=
  (dictGet tr k).getD {}

/-- `tracking.get(comp_id, {})` with per-key defaults. -/
def spotsLookup (tr : SpotsTracking) (k : String) : SpotsEntry :=
  (dictGet tr k).getD {}

/-- `REGISTRATION_UPCOMING_WINDOW` (minutes). -/
def REGISTRATION_UPCOMING_WINDOW : ℚ := 60

/-- `SPOTS_WARNING_THRESHOLD`. -/
def SPOTS_WARNING_THRESHOLD : ℚ := 80 / 100

/-- Ids of a list of competitions. -/
def compIds (l : List Comp) : List String := l.map Comp.id

/-- `detect_new_competitions`: keep current records whose id is not among the
previous ids. -/
def detect_new_competitions (current previous : List Comp) : List Comp :=
  current.filter (fun c => decide (c.id ∉ compIds previous))

/-- The set comparison `prev_ids != current_ids` of `save_competitions`. -/
def idSetEq (a b : List Comp) : Bool :=
  decide ((∀ k ∈ compIds a, k ∈ compIds b) ∧ (∀ k ∈ compIds b, k ∈ compIds a))

/-- `save_competitions`: overwrite the stored snapshot with the current one
only when the id sets differ; returns the new store and whether it wrote. -/
def save_competitions (store current : List Comp) : List Comp × Bool :=
  if idSetEq store current then (store, false) else (current, true)

/-- `clean_old_competitions`: keep competitions whose end date is on or after
today.  `strptime` on a malformed `end_date` raises, aborting the pass. -/
def clean_old_competitions (comps : List Comp) (todayD : Int) :
    Except Unit (List Comp) :=
  match comps with
  | [] => .ok []
  | c :: rest =>
    match c.end_date with
    | none => .error ()
    | some ed =>
      (clean_old_competitions rest todayD).map
        (fun l => if todayD ≤ ed then c :: l else l)

/-- The set of ids of competitions whose start date is strictly in the future,
as computed by both ledger-cleaning functions.  `strptime` on a malformed
`start_date` raises. -/
def futureCompIds (comps : List Comp) (todayD : Int) :
    Except Unit (List String) :=
  match comps with
  | [] => .ok []
  | c :: rest =>
    match c.start_date with
    | none => .error ()
    | some sd =>
      (futureCompIds rest todayD).map
        (fun ids => if todayD < sd then c.id :: ids else ids)

/-- `clean_old_registration_tracking`: keep entries whose id belongs to a
competition of the given (persisted) snapshot with a strictly-future start. -/
def clean_old_registration_tracking (tracking : RegTracking)
    (comps : List Comp) (todayD : Int) : Except Unit RegTracking :=
  (futureCompIds comps todayD).map
    (fun ids => tracking.filter (fun p => ids.contains p.1))

/-- `clean_old_spots_tracking`: same retention rule for the spots ledger. -/
def clean_old_spots_tracking (tracking : SpotsTracking)
    (comps : List Comp) (todayD : Int) : Except Unit SpotsTracking :=
  (futureCompIds comps todayD).map
    (fun ids => tracking.filter (fun p => ids.contains p.1))

/-- `detect_registration_opening_soon`.  Per record: skip if already notified;
parse `start_date` (outside any `try`: a malformed value raises and aborts the
whole batch) and skip started competitions; skip a falsy `registration_open`;
a malformed `registration_open` is caught and the record skipped; otherwise
include the record when `0 < (reg_open - now)/60 ≤ REGISTRATION_UPCOMING_WINDOW`. -/
def detect_registration_opening_soon (comps : List Comp) (tracking : RegTracking)
    (todayD now : Int) : Except Unit (List Comp) :=
  match comps with
  | [] => .ok []
  | c :: rest =>
    if (regLookup tracking c.id).notified_upcoming then
      detect_registration_opening_soon rest tracking todayD now
    else
      match c.start_date with
      | none => .error ()
      | some sd =>
        if sd ≤ todayD then
          detect_registration_opening_soon rest tracking todayD now
        else
          match c.registration_open with
          | .absent => detect_registration_opening_soon rest tracking todayD now
          | .malformed => detect_registration_opening_soon rest tracking todayD now
          | .valid t =>
            if 0 < ((t - now : ℤ) : ℚ) / 60 ∧
                ((t - now : ℤ) : ℚ) / 60 ≤ REGISTRATION_UPCOMING_WINDOW then
              (detect_registration_opening_soon rest tracking todayD now).map
                (fun l => c :: l)
            else
              detect_registration_opening_soon rest tracking todayD now

/-- `detect_registration_just_opened`: symmetric check with the closed window
`0 ≤ (now - reg_open)/60 ≤ 60`, gated on `notified_open`. -/
def detect_registration_just_opened (comps : List Comp) (tracking : RegTracking)
    (todayD now : Int) : Except Unit (List Comp) :=
  match comps with
  | [] => .ok []
  | c :: rest =>
    if (regLookup tracking c.id).notified_open then
      detect_registration_just_opened rest tracking todayD now
    else
      match c.start_date with
      | none => .error ()
      | some sd =>
        if sd ≤ todayD then
          detect_registration_just_opened rest tracking todayD now
        else
          match c.registration_open with
          | .absent => detect_registration_just_opened rest tracking todayD now
          | .malformed => detect_registration_just_opened rest tracking todayD now
          | .valid t =>
            if 0 ≤ ((now - t : ℤ) : ℚ) / 60 ∧ ((now - t : ℤ) : ℚ) / 60 ≤ 60 then
              (detect_registration_just_opened rest tracking todayD now).map
                (fun l => c :: l)
            else
              detect_registration_just_opened rest tracking todayD now

/-- One element of the `almost_full` result: the record plus the live count
and fill ratio merged in by `detect_limited_spots`. -/
structure AlmostFullItem where
  comp : Comp
  current_count : Nat
  percentage_filled : ℚ
deriving DecidableEq, Repr

/-- `detect_limited_spots`: skip notified, started, limitless records; on a
failed occupancy lookup skip; on success refresh `last_count`/`limit` in the
ledger and append to the result only when the fill ratio reaches the
threshold.  A malformed `start_date` raises and aborts the batch. -/
def detect_limited_spots (comps : List Comp) (tracking : SpotsTracking)
    (todayD : Int) (counts : Comp → Option Nat) :
    Except Unit (List AlmostFullItem × SpotsTracking) :=
  match comps with
  | [] => .ok ([], tracking)
  | c :: rest =>
    if (spotsLookup tracking c.id).notified then
      detect_limited_spots rest tracking todayD counts
    else
      match c.start_date with
      | none => .error ()
      | some sd =>
        if sd ≤ todayD then
          detect_limited_spots rest tracking todayD counts
        else
          match c.competitor_limit with
          | none => detect_limited_spots rest tracking todayD counts
          | some lim =>
            if lim = 0 then
              detect_limited_spots rest tracking todayD counts
            else
              match counts c with
              | none => detect_limited_spots rest tracking todayD counts
              | some cnt =>
                let tracking2 := dictSet tracking c.id
                  { spotsLookup tracking c.id with
                    last_count := some cnt, limit := some lim }
                if SPOTS_WARNING_THRESHOLD ≤ (cnt : ℚ) / (lim : ℚ) then
                  (detect_limited_spots rest tracking2 todayD counts).map
                    (fun p => (⟨c, cnt, (cnt : ℚ) / (lim : ℚ)⟩ :: p.1, p.2))
                else
                  detect_limited_spots rest tracking2 todayD counts

/-- The loop of `main` over `upcoming_reg`: on a successful dispatch, create
the entry if absent and set `notified_upcoming`. -/
def processUpcoming (notify : Comp → Bool) (l : List Comp) (tr : RegTracking) :
    RegTracking :=
  match l with
  | [] => tr
  | c :: rest =>
    if notify c then
      processUpcoming notify rest
        (dictSet tr c.id { regLookup tr c.id with notified_upcoming := true })
    else
      processUpcoming notify rest tr

/-- The loop of `main` over `just_opened_reg`: on success set `notified_open`. -/
def processOpen (notify : Comp → Bool) (l : List Comp) (tr : RegTracking) :
    RegTracking :=
  match l with
  | [] => tr
  | c :: rest =>
    if notify c then
      processOpen notify rest
        (dictSet tr c.id { regLookup tr c.id with notified_open := true })
    else
      processOpen notify rest tr

/-- The loop of `main` over `limited_spots`: on success set `notified`. -/
def processSpots (notify : AlmostFullItem → Bool) (l : List AlmostFullItem)
    (tr : SpotsTracking) : SpotsTracking :=
  match l with
  | [] => tr
  | it :: rest =>
    if notify it then
      processSpots notify rest
        (dictSet tr it.comp.id
          { spotsLookup tr it.comp.id with notified := true })
    else
      processSpots notify rest tr

/-- The in-memory state that survives across runs (three persisted files). -/
structure RunState where
  store : List Comp
  regTracking : RegTracking
  spotsTracking : SpotsTracking
deriving DecidableEq, Repr

/-- The event batches one run detects and hands to the dispatchers. -/
structure RunEvents where
  newComps : List Comp
  upcoming : List Comp
  justOpened : List Comp
  limited : List AlmostFullItem
deriving DecidableEq, Repr

/-- One full cycle of `main`: clean the three stores (the ledger cleaning uses
the persisted, already-swept snapshot, before the fetch), fetch, return early
on an empty fetch, dispatch new competitions and save the snapshot only when
some id is new (ignoring the dispatch result), then run the two registration
window checks and the capacity check, committing each ledger flag only on a
successful dispatch.  The snapshot passed to every detector is the fresh
fetch. -/
def runMain (st : RunState) (todayD now : Int) (fetch : List Comp)
    (counts : Comp → Option Nat) (notifyNew : List Comp → Bool)
    (notifyUpcoming notifyOpen : Comp → Bool)
    (notifySpots : AlmostFullItem → Bool) :
    Except Unit (RunState × RunEvents) :=
  match clean_old_competitions st.store todayD with
  | .error e => .error e
  | .ok store1 =>
  match clean_old_registration_tracking st.regTracking store1 todayD with
  | .error e => .error e
  | .ok reg1 =>
  match clean_old_spots_tracking st.spotsTracking store1 todayD with
  | .error e => .error e
  | .ok spots1 =>
  if fetch.isEmpty then
    .ok ({ store := store1, regTracking := reg1, spotsTracking := spots1 },
         ⟨[], [], [], []⟩)
  else
    let newComps := detect_new_competitions fetch store1
    let _ := notifyNew newComps
    let store2 := if newComps.isEmpty then store1
                  else (save_competitions store1 fetch).1
    match detect_registration_opening_soon fetch reg1 todayD now with
    | .error e => .error e
    | .ok upcoming =>
    let reg2 := processUpcoming notifyUpcoming upcoming reg1
    match detect_registration_just_opened fetch reg2 todayD now with
    | .error e => .error e
    | .ok justOpened =>
    let reg3 := processOpen notifyOpen justOpened reg2
    match detect_limited_spots fetch spots1 todayD counts with
    | .error e => .error e
    | .ok (limited, spots2) =>
    let spots3 := processSpots notifySpots limited spots2
    .ok ({ store := store2, regTracking := reg3, spotsTracking := spots3 },
         ⟨newComps, upcoming, justOpened, limited⟩)

/-! ### Dictionary lemmas -/

theorem dictGet_dictSet_self {α : Type} (m : List (String × α)) (k : String)
    (v : α) : dictGet (dictSet m k v) k = some v := by
  induction m with
  | nil => simp [dictSet, dictGet]
  | cons p rest ih =>
    obtain ⟨k', v'⟩ := p
    by_cases h : k' = k
    · simp [dictSet, dictGet, h]
    · simp [dictSet, dictGet, h, ih]

theorem dictGet_dictSet_ne {α : Type} (m : List (String × α)) (k k' : String)
    (v : α) (h : k ≠ k') : dictGet (dictSet m k v) k' = dictGet m k' := by
  induction m with
  | nil => simp [dictSet, dictGet, h]
  | cons p rest ih =>
    obtain ⟨k₀, v₀⟩ := p
    by_cases h0 : k₀ = k
    · subst h0
      simp [dictSet, dictGet, h]
    · simp [dictSet, dictGet, h0, ih]

theorem dictGet_filter {α : Type} (m : List (String × α)) (q : String → Bool)
    (k : String) :
    dictGet (m.filter (fun p => q p.1)) k =
      if q k then dictGet m k else none := by
  induction m with
  | nil => simp [dictGet]
  | cons p rest ih =>
    obtain ⟨k', v'⟩ := p
    by_cases hk : k' = k
    · subst hk
      by_cases hq : q k'
      · simp [List.filter, hq, dictGet, ih]
      · simp [List.filter, hq, dictGet, ih]
    · by_cases hq : q k'
      · simp [List.filter, hq, dictGet, hk, ih]
      · simp [List.filter, hq, dictGet, hk, ih]

/-! ### Lemmas about the three dispatch-commit loops of `main` -/

theorem processUpcoming_const_false (l : List Comp) (tr : RegTracking) :
    processUpcoming (fun _ => false) l tr = tr := by
  induction l with
  | nil => rfl
  | cons c rest ih => simp [processUpcoming, ih]

theorem processOpen_const_false (l : List Comp) (tr : RegTracking) :
    processOpen (fun _ => false) l tr = tr := by
  induction l with
  | nil => rfl
  | cons c rest ih => simp [processOpen, ih]

theorem processSpots_const_false (l : List AlmostFullItem) (tr : SpotsTracking) :
    processSpots (fun _ => false) l tr = tr := by
  induction l with
  | nil => rfl
  | cons c rest ih => simp [processSpots, ih]

theorem processUpcoming_flag_mono (notify : Comp → Bool) (l : List Comp)
    (tr : RegTracking) (k : String)
    (h : (regLookup tr k).notified_upcoming = true) :
    (regLookup (processUpcoming notify l tr) k).notified_upcoming = true := by
  induction l generalizing tr with
  | nil => exact h
  | cons c rest ih =>
    rw [processUpcoming]
    by_cases hn : notify c
    · rw [if_pos hn]
      apply ih
      by_cases hk : c.id = k
      · subst hk
        simp [regLookup, dictGet_dictSet_self]
      · rw [regLookup, dictGet_dictSet_ne _ _ _ _ hk]
        exact h
    · rw [if_neg hn]
      exact ih tr h

theorem processOpen_flag_mono (notify : Comp → Bool) (l : List Comp)
    (tr : RegTracking) (k : String)
    (h : (regLookup tr k).notified_open = true) :
    (regLookup (processOpen notify l tr) k).notified_open = true := by
  induction l generalizing tr with
  | nil => exact h
  | cons c rest ih =>
    rw [processOpen]
    by_cases hn : notify c
    · rw [if_pos hn]
      apply ih
      by_cases hk : c.id = k
      · subst hk
        simp [regLookup, dictGet_dictSet_self]
      · rw [regLookup, dictGet_dictSet_ne _ _ _ _ hk]
        exact h
    · rw [if_neg hn]
      exact ih tr h

theorem processSpots_flag_mono (notify : AlmostFullItem → Bool)
    (l : List AlmostFullItem) (tr : SpotsTracking) (k : String)
    (h : (spotsLookup tr k).notified = true) :
    (spotsLookup (processSpots notify l tr) k).notified = true := by
  induction l generalizing tr with
  | nil => exact h
  | cons it rest ih =>
    rw [processSpots]
    by_cases hn : notify it
    · rw [if_pos hn]
      apply ih
      by_cases hk : it.comp.id = k
      · subst hk
        simp [spotsLookup, dictGet_dictSet_self]
      · rw [spotsLookup, dictGet_dictSet_ne _ _ _ _ hk]
        exact h
    · rw [if_neg hn]
      exact ih tr h

theorem processUpcoming_sets (notify : Comp → Bool) (l : List Comp)
    (tr : RegTracking) (c : Comp) (hc : c ∈ l) (hn : notify c = true) :
    (regLookup (processUpcoming notify l tr) c.id).notified_upcoming = true := by
  induction l generalizing tr with
  | nil => cases hc
  | cons d rest ih =>
    rw [processUpcoming]
    rcases List.mem_cons.mp hc with rfl | hmem
    · rw [if_pos hn]
      apply processUpcoming_flag_mono
      simp [regLookup, dictGet_dictSet_self]
    · by_cases hd : notify d
      · rw [if_pos hd]
        exact ih _ hmem
      · rw [if_neg hd]
        exact ih tr hmem

theorem processOpen_sets (notify : Comp → Bool) (l : List Comp)
    (tr : RegTracking) (c : Comp) (hc : c ∈ l) (hn : notify c = true) :
    (regLookup (processOpen notify l tr) c.id).notified_open = true := by
  induction l generalizing tr with
  | nil => cases hc
  | cons d rest ih =>
    rw [processOpen]
    rcases List.mem_cons.mp hc with rfl | hmem
    · rw [if_pos hn]
      apply processOpen_flag_mono
      simp [regLookup, dictGet_dictSet_self]
    · by_cases hd : notify d
      · rw [if_pos hd]
        exact ih _ hmem
      · rw [if_neg hd]
        exact ih tr hmem

theorem processSpots_sets (notify : AlmostFullItem → Bool)
    (l : List AlmostFullItem) (tr : SpotsTracking) (it : AlmostFullItem)
    (hc : it ∈ l) (hn : notify it = true) :
    (spotsLookup (processSpots notify l tr) it.comp.id).notified = true := by
  induction l generalizing tr with
  | nil => cases hc
  | cons d rest ih =>
    rw [processSpots]
    rcases List.mem_cons.mp hc with rfl | hmem
    · rw [if_pos hn]
      apply processSpots_flag_mono
      simp [spotsLookup, dictGet_dictSet_self]
    · by_cases hd : notify d
      · rw [if_pos hd]
        exact ih _ hmem
      · rw [if_neg hd]
        exact ih tr hmem

theorem processUpcoming_untouched (notify : Comp → Bool) (l : List Comp)
    (tr : RegTracking) (k : String)
    (h : ∀ c ∈ l, c.id = k → notify c = false) :
    dictGet (processUpcoming notify l tr) k = dictGet tr k := by
  induction l generalizing tr with
  | nil => rfl
  | cons c rest ih =>
    rw [processUpcoming]
    by_cases hn : notify c
    · rw [if_pos hn]
      have hne : c.id ≠ k := by
        intro hk
        have := h c (List.mem_cons_self c rest) hk
        rw [this] at hn
        cases hn
      rw [ih _ (fun d hd => h d (List.mem_cons_of_mem c hd)),
          dictGet_dictSet_ne _ _ _ _ hne]
    · rw [if_neg hn]
      exact ih tr (fun d hd => h d (List.mem_cons_of_mem c hd))

theorem processOpen_untouched (notify : Comp → Bool) (l : List Comp)
    (tr : RegTracking) (k : String)
    (h : ∀ c ∈ l, c.id = k → notify c = false) :
    dictGet (processOpen notify l tr) k = dictGet tr k := by
  induction l generalizing tr with
  | nil => rfl
  | cons c rest ih =>
    rw [processOpen]
    by_cases hn : notify c
    · rw [if_pos hn]
      have hne : c.id ≠ k := by
        intro hk
        have := h c (List.mem_cons_self c rest) hk
        rw [this] at hn
        cases hn
      rw [ih _ (fun d hd => h d (List.mem_cons_of_mem c hd)),
          dictGet_dictSet_ne _ _ _ _ hne]
    · rw [if_neg hn]
      exact ih tr (fun d hd => h d (List.mem_cons_of_mem c hd))

theorem processSpots_untouched (notify : AlmostFullItem → Bool)
    (l : List AlmostFullItem) (tr : SpotsTracking) (k : String)
    (h : ∀ it ∈ l, it.comp.id = k → notify it = false) :
    dictGet (processSpots notify l tr) k = dictGet tr k := by
  induction l generalizing tr with
  | nil => rfl
  | cons c rest ih =>
    rw [processSpots]
    by_cases hn : notify c
    · rw [if_pos hn]
      have hne : c.comp.id ≠ k := by
        intro hk
        have := h c (List.mem_cons_self c rest) hk
        rw [this] at hn
        cases hn
      rw [ih _ (fun d hd => h d (List.mem_cons_of_mem c hd)),
          dictGet_dictSet_ne _ _ _ _ hne]
    · rw [if_neg hn]
      exact ih tr (fun d hd => h d (List.mem_cons_of_mem c hd))

/-! ### Membership characterizations of the window detectors -/

/-- The per-record inclusion condition of `detect_registration_opening_soon`. -/
def upcomingCond (c : Comp) (tr : RegTracking) (todayD now : Int) : Prop :=
  (regLookup tr c.id).notified_upcoming = false ∧
  (∃ sd, c.start_date = some sd ∧ todayD < sd) ∧
  (∃ t, c.registration_open = TsField.valid t ∧
    0 < ((t - now : ℤ) : ℚ) / 60 ∧
    ((t - now : ℤ) : ℚ) / 60 ≤ REGISTRATION_UPCOMING_WINDOW)

/-- The per-record inclusion condition of `detect_registration_just_opened`. -/
def justOpenedCond (c : Comp) (tr : RegTracking) (todayD now : Int) : Prop :=
  (regLookup tr c.id).notified_open = false ∧
  (∃ sd, c.start_date = some sd ∧ todayD < sd) ∧
  (∃ t, c.registration_open = TsField.valid t ∧
    0 ≤ ((now - t : ℤ) : ℚ) / 60 ∧ ((now - t : ℤ) : ℚ) / 60 ≤ 60)

theorem mem_iff_skip_aux {α : Type} (c d : α) (rest res : List α) (P : Prop)
    (hres : c ∈ res ↔ c ∈ rest ∧ P) (hd : c = d → ¬P) :
    c ∈ res ↔ c ∈ d :: rest ∧ P := by
  rw [hres, List.mem_cons]
  constructor
  · rintro ⟨h1, h2⟩
    exact ⟨Or.inr h1, h2⟩
  · rintro ⟨h1 | h1, h2⟩
    · exact absurd h2 (hd h1)
    · exact ⟨h1, h2⟩

theorem mem_iff_keep_aux {α : Type} (c d : α) (rest res' : List α) (P : Prop)
    (hres : c ∈ res' ↔ c ∈ rest ∧ P) (hd : c = d → P) :
    c ∈ d :: res' ↔ c ∈ d :: rest ∧ P := by
  simp only [List.mem_cons, hres]
  constructor
  · rintro (h1 | ⟨h1, h2⟩)
    · exact ⟨Or.inl h1, hd h1⟩
    · exact ⟨Or.inr h1, h2⟩
  · rintro ⟨h1 | h1, h2⟩
    · exact Or.inl h1
    · exact Or.inr ⟨h1, h2⟩

theorem mem_opening_soon_iff (comps : List Comp) (tr : RegTracking)
    (todayD now : Int) (res : List Comp)
    (h : detect_registration_opening_soon comps tr todayD now = .ok res)
    (c : Comp) : c ∈ res ↔ c ∈ comps ∧ upcomingCond c tr todayD now := by
  induction comps generalizing res with
  | nil =>
    rw [detect_registration_opening_soon] at h
    cases h
    simp
  | cons d rest ih =>
    rw [detect_registration_opening_soon] at h
    by_cases h1 : (regLookup tr d.id).notified_upcoming
    · rw [if_pos h1] at h
      refine mem_iff_skip_aux c d rest res _ (ih res h) ?_
      rintro rfl hP
      rw [hP.1] at h1
      cases h1
    · rw [if_neg h1] at h
      cases hsd : d.start_date with
      | none =>
        rw [hsd] at h
        cases h
      | some sd =>
        rw [hsd] at h
        dsimp only at h
        by_cases h2 : sd ≤ todayD
        · rw [if_pos h2] at h
          refine mem_iff_skip_aux c d rest res _ (ih res h) ?_
          rintro rfl ⟨-, ⟨sd', hsd', hlt⟩, -⟩
          rw [hsd] at hsd'
          cases hsd'
          omega
        · rw [if_neg h2] at h
          cases hreg : d.registration_open with
          | absent =>
            rw [hreg] at h
            refine mem_iff_skip_aux c d rest res _ (ih res h) ?_
            rintro rfl ⟨-, -, t, hval, -⟩
            rw [hreg] at hval
            cases hval
          | malformed =>
            rw [hreg] at h
            refine mem_iff_skip_aux c d rest res _ (ih res h) ?_
            rintro rfl ⟨-, -, t, hval, -⟩
            rw [hreg] at hval
            cases hval
          | valid t =>
            rw [hreg] at h
            dsimp only at h
            by_cases h3 : 0 < ((t - now : ℤ) : ℚ) / 60 ∧
                ((t - now : ℤ) : ℚ) / 60 ≤ REGISTRATION_UPCOMING_WINDOW
            · rw [if_pos h3] at h
              cases hrec : detect_registration_opening_soon rest tr todayD now with
              | error e =>
                rw [hrec] at h
                cases h
              | ok res' =>
                rw [hrec] at h
                cases h
                refine mem_iff_keep_aux c d rest res' _ (ih res' hrec) ?_
                rintro rfl
                refine ⟨by simpa using h1, ⟨sd, hsd, by omega⟩, t, hreg, h3.1, h3.2⟩
            · rw [if_neg h3] at h
              refine mem_iff_skip_aux c d rest res _ (ih res h) ?_
              rintro rfl ⟨-, -, t', hval, hwin1, hwin2⟩
              rw [hreg] at hval
              cases hval
              exact h3 ⟨hwin1, hwin2⟩

theorem mem_just_opened_iff (comps : List Comp) (tr : RegTracking)
    (todayD now : Int) (res : List Comp)
    (h : detect_registration_just_opened comps tr todayD now = .ok res)
    (c : Comp) : c ∈ res ↔ c ∈ comps ∧ justOpenedCond c tr todayD now := by
  induction comps generalizing res with
  | nil =>
    rw [detect_registration_just_opened] at h
    cases h
    simp
  | cons d rest ih =>
    rw [detect_registration_just_opened] at h
    by_cases h1 : (regLookup tr d.id).notified_open
    · rw [if_pos h1] at h
      refine mem_iff_skip_aux c d rest res _ (ih res h) ?_
      rintro rfl hP
      rw [hP.1] at h1
      cases h1
    · rw [if_neg h1] at h
      cases hsd : d.start_date with
      | none =>
        rw [hsd] at h
        cases h
      | some sd =>
        rw [hsd] at h
        dsimp only at h
        by_cases h2 : sd ≤ todayD
        · rw [if_pos h2] at h
          refine mem_iff_skip_aux c d rest res _ (ih res h) ?_
          rintro rfl ⟨-, ⟨sd', hsd', hlt⟩, -⟩
          rw [hsd] at hsd'
          cases hsd'
          omega
        · rw [if_neg h2] at h
          cases hreg : d.registration_open with
          | absent =>
            rw [hreg] at h
            refine mem_iff_skip_aux c d rest res _ (ih res h) ?_
            rintro rfl ⟨-, -, t, hval, -⟩
            rw [hreg] at hval
            cases hval
          | malformed =>
            rw [hreg] at h
            refine mem_iff_skip_aux c d rest res _ (ih res h) ?_
            rintro rfl ⟨-, -, t, hval, -⟩
            rw [hreg] at hval
            cases hval
          | valid t =>
            rw [hreg] at h
            dsimp only at h
            by_cases h3 : 0 ≤ ((now - t : ℤ) : ℚ) / 60 ∧
                ((now - t : ℤ) : ℚ) / 60 ≤ 60
            · rw [if_pos h3] at h
              cases hrec : detect_registration_just_opened rest tr todayD now with
              | error e =>
                rw [hrec] at h
                cases h
              | ok res' =>
                rw [hrec] at h
                cases h
                refine mem_iff_keep_aux c d rest res' _ (ih res' hrec) ?_
                rintro rfl
                refine ⟨by simpa using h1, ⟨sd, hsd, by omega⟩, t, hreg, h3.1, h3.2⟩
            · rw [if_neg h3] at h
              refine mem_iff_skip_aux c d rest res _ (ih res h) ?_
              rintro rfl ⟨-, -, t', hval, hwin1, hwin2⟩
              rw [hreg] at hval
              cases hval
              exact h3 ⟨hwin1, hwin2⟩

/-! ### Lemmas about `detect_limited_spots` -/

theorem detect_limited_spots_preserves_notified (comps : List Comp)
    (tr : SpotsTracking) (todayD : Int) (counts : Comp → Option Nat)
    (res : List AlmostFullItem) (tr' : SpotsTracking)
    (h : detect_limited_spots comps tr todayD counts = .ok (res, tr'))
    (k : String) :
    (spotsLookup tr' k).notified = (spotsLookup tr k).notified := by
  induction comps generalizing tr res with
  | nil =>
    rw [detect_limited_spots] at h
    cases h
    rfl
  | cons c rest ih =>
    rw [detect_limited_spots] at h
    by_cases h1 : (spotsLookup tr c.id).notified
    · rw [if_pos h1] at h
      exact ih tr res h
    · rw [if_neg h1] at h
      cases hsd : c.start_date with
      | none =>
        rw [hsd] at h
        cases h
      | some sd =>
        rw [hsd] at h
        dsimp only at h
        by_cases h2 : sd ≤ todayD
        · rw [if_pos h2] at h
          exact ih tr res h
        · rw [if_neg h2] at h
          cases hlim : c.competitor_limit with
          | none =>
            rw [hlim] at h
            exact ih tr res h
          | some lim =>
            rw [hlim] at h
            dsimp only at h
            by_cases h4 : lim = 0
            · rw [if_pos h4] at h
              exact ih tr res h
            · rw [if_neg h4] at h
              cases hcnt : counts c with
              | none =>
                rw [hcnt] at h
                exact ih tr res h
              | some cnt =>
                rw [hcnt] at h
                dsimp only at h
                have hpres : ∀ k',
                    (spotsLookup (dictSet tr c.id
                      { spotsLookup tr c.id with
                        last_count := some cnt, limit := some lim }) k').notified =
                    (spotsLookup tr k').notified := by
                  intro k'
                  by_cases hk : c.id = k'
                  · subst hk
                    simp [spotsLookup, dictGet_dictSet_self]
                  · rw [spotsLookup, dictGet_dictSet_ne _ _ _ _ hk, spotsLookup]
                by_cases h5 : SPOTS_WARNING_THRESHOLD ≤ (cnt : ℚ) / (lim : ℚ)
                · rw [if_pos h5] at h
                  cases hrec : detect_limited_spots rest
                      (dictSet tr c.id
                        { spotsLookup tr c.id with
                          last_count := some cnt, limit := some lim })
                      todayD counts with
                  | error e =>
                    rw [hrec] at h
                    cases h
                  | ok p =>
                    rw [hrec] at h
                    cases h
                    rw [ih _ p.1 (by rw [hrec]), hpres k]
                · rw [if_neg h5] at h
                  rw [ih _ res h, hpres k]

theorem mem_limited_spots_not_notified (comps : List Comp) (tr : SpotsTracking)
    (todayD : Int) (counts : Comp → Option Nat) (res : List AlmostFullItem)
    (tr' : SpotsTracking)
    (h : detect_limited_spots comps tr todayD counts = .ok (res, tr'))
    (it : AlmostFullItem) (hit : it ∈ res) :
    (spotsLookup tr it.comp.id).notified = false := by
  induction comps generalizing tr res with
  | nil =>
    rw [detect_limited_spots] at h
    cases h
    cases hit
  | cons c rest ih =>
    rw [detect_limited_spots] at h
    by_cases h1 : (spotsLookup tr c.id).notified
    · rw [if_pos h1] at h
      exact ih tr res h hit
    · rw [if_neg h1] at h
      cases hsd : c.start_date with
      | none =>
        rw [hsd] at h
        cases h
      | some sd =>
        rw [hsd] at h
        dsimp only at h
        by_cases h2 : sd ≤ todayD
        · rw [if_pos h2] at h
          exact ih tr res h hit
        · rw [if_neg h2] at h
          cases hlim : c.competitor_limit with
          | none =>
            rw [hlim] at h
            exact ih tr res h hit
          | some lim =>
            rw [hlim] at h
            dsimp only at h
            by_cases h4 : lim = 0
            · rw [if_pos h4] at h
              exact ih tr res h hit
            · rw [if_neg h4] at h
              cases hcnt : counts c with
              | none =>
                rw [hcnt] at h
                exact ih tr res h hit
              | some cnt =>
                rw [hcnt] at h
                dsimp only at h
                have hpres : ∀ k',
                    (spotsLookup (dictSet tr c.id
                      { spotsLookup tr c.id with
                        last_count := some cnt, limit := some lim }) k').notified =
                    (spotsLookup tr k').notified := by
                  intro k'
                  by_cases hk : c.id = k'
                  · subst hk
                    simp [spotsLookup, dictGet_dictSet_self]
                  · rw [spotsLookup, dictGet_dictSet_ne _ _ _ _ hk, spotsLookup]
                by_cases h5 : SPOTS_WARNING_THRESHOLD ≤ (cnt : ℚ) / (lim : ℚ)
                · rw [if_pos h5] at h
                  cases hrec : detect_limited_spots rest
                      (dictSet tr c.id
                        { spotsLookup tr c.id with
                          last_count := some cnt, limit := some lim })
                      todayD counts with
                  | error e =>
                    rw [hrec] at h
                    cases h
                  | ok p =>
                    rw [hrec] at h
                    cases h
                    rcases List.mem_cons.mp hit with rfl | hmem
                    · simpa using h1
                    · rw [← hpres it.comp.id]
                      exact ih _ p.1 (by rw [hrec]) hmem
                · rw [if_neg h5] at h
                  rw [← hpres it.comp.id]
                  exact ih _ res h hit

/-! ### Structure of a successful run -/

theorem runMain_ok (st : RunState) (todayD now : Int) (fetch : List Comp)
    (counts : Comp → Option Nat) (notifyNew : List Comp → Bool)
    (notifyUpcoming notifyOpen : Comp → Bool)
    (notifySpots : AlmostFullItem → Bool) (s' : RunState) (ev : RunEvents)
    (h : runMain st todayD now fetch counts notifyNew notifyUpcoming notifyOpen
          notifySpots = .ok (s', ev)) :
    ∃ store1 reg1 spots1,
      clean_old_competitions st.store todayD = .ok store1 ∧
      clean_old_registration_tracking st.regTracking store1 todayD = .ok reg1 ∧
      clean_old_spots_tracking st.spotsTracking store1 todayD = .ok spots1 ∧
      ((fetch = [] ∧ s' = ⟨store1, reg1, spots1⟩ ∧ ev = ⟨[], [], [], []⟩) ∨
       (fetch ≠ [] ∧ ∃ upcoming justOpened limited spots2,
          detect_registration_opening_soon fetch reg1 todayD now = .ok upcoming ∧
          detect_registration_just_opened fetch
            (processUpcoming notifyUpcoming upcoming reg1) todayD now
            = .ok justOpened ∧
          detect_limited_spots fetch spots1 todayD counts = .ok (limited, spots2) ∧
          ev = ⟨detect_new_competitions fetch store1, upcoming, justOpened,
                limited⟩ ∧
          s' = ⟨(if (detect_new_competitions fetch store1).isEmpty then store1
                 else (save_competitions store1 fetch).1),
                processOpen notifyOpen justOpened
                  (processUpcoming notifyUpcoming upcoming reg1),
                processSpots notifySpots limited spots2⟩)) := by
  rw [runMain] at h
  cases hclean : clean_old_competitions st.store todayD with
  | error e =>
    rw [hclean] at h
    cases h
  | ok store1 =>
  rw [hclean] at h
  dsimp only at h
  cases hreg : clean_old_registration_tracking st.regTracking store1 todayD with
  | error e =>
    rw [hreg] at h
    cases h
  | ok reg1 =>
  rw [hreg] at h
  dsimp only at h
  cases hspots : clean_old_spots_tracking st.spotsTracking store1 todayD with
  | error e =>
    rw [hspots] at h
    cases h
  | ok spots1 =>
  rw [hspots] at h
  dsimp only at h
  refine ⟨store1, reg1, spots1, rfl, hreg, hspots, ?_⟩
  by_cases hf : fetch.isEmpty
  · rw [if_pos hf] at h
    cases h
    exact Or.inl ⟨List.isEmpty_iff.mp hf, rfl, rfl⟩
  · rw [if_neg hf] at h
    cases hup : detect_registration_opening_soon fetch reg1 todayD now with
    | error e =>
      rw [hup] at h
      cases h
    | ok upcoming =>
    rw [hup] at h
    dsimp only at h
    cases hjo : detect_registration_just_opened fetch
        (processUpcoming notifyUpcoming upcoming reg1) todayD now with
    | error e =>
      rw [hjo] at h
      cases h
    | ok justOpened =>
    rw [hjo] at h
    dsimp only at h
    cases hls : detect_limited_spots fetch spots1 todayD counts with
    | error e =>
      rw [hls] at h
      cases h
    | ok p =>
    rw [hls] at h
    dsimp only at h
    cases h
    exact Or.inr ⟨fun he => hf (by simp [he]),
      upcoming, justOpened, p.1, p.2, rfl, hjo, rfl, rfl, rfl⟩

/-! ### Claim theorems -/

/-- C3: `detect_new_competitions` is a pure set difference on ids: comparing a
snapshot with itself yields nothing, comparing with an empty previous snapshot
yields every entity, and an entity whose id appears in the previous snapshot
is never reported as new, regardless of its other fields. -/
theorem C3_detect_new_is_id_set_difference :
    (∀ A : List Comp, detect_new_competitions A A = []) ∧
    (∀ A : List Comp, detect_new_competitions A [] = A) ∧
    (∀ A B : List Comp, ∀ c ∈ A, c.id ∈ compIds B →
      c ∉ detect_new_competitions A B) := by
  refine ⟨?_, ?_, ?_⟩
  · intro A
    rw [detect_new_competitions, List.filter_eq_nil_iff]
    intro c hc
    simp only [decide_eq_true_eq, Decidable.not_not]
    exact List.mem_map_of_mem Comp.id hc
  · intro A
    rw [detect_new_competitions, List.filter_eq_self]
    intro c _
    simp [compIds]
  · intro A B c _ hid hmem
    have := (List.mem_filter.mp hmem).2
    simp only [decide_eq_true_eq] at this
    exact this hid

def compSame : Comp := { id := "A" }

def compSameChanged : Comp := { id := "A", start_date := some 1 }

/-- Witness for C3 at a concrete input: an entity whose id already exists in
the previous snapshot (with different fields) is not reported as new. -/
theorem C3_witness : compSame ∉ detect_new_competitions [compSame] [compSameChanged] :=
  C3_detect_new_is_id_set_difference.2.2 [compSame] [compSameChanged] compSame
    (by decide) (by decide)

/-- C10: at one shared evaluation instant, the opening-soon and just-opened
results are disjoint: the first requires `registration_open` strictly after
`now`, the second requires it at or before `now`. -/
theorem C10_window_results_disjoint (comps : List Comp) (tr : RegTracking)
    (todayD now : Int) (l1 l2 : List Comp)
    (h1 : detect_registration_opening_soon comps tr todayD now = .ok l1)
    (h2 : detect_registration_just_opened comps tr todayD now = .ok l2) :
    ∀ c ∈ l1, c ∉ l2 := by
  intro c hc1 hc2
  have hA := ((mem_opening_soon_iff comps tr todayD now l1 h1 c).mp hc1).2
  have hB := ((mem_just_opened_iff comps tr todayD now l2 h2 c).mp hc2).2
  unfold upcomingCond at hA
  unfold justOpenedCond at hB
  obtain ⟨-, -, t, hval, hpos, -⟩ := hA
  obtain ⟨-, -, t', hval', hnn, -⟩ := hB
  rw [hval] at hval'
  cases hval'
  have hlt : (0 : ℤ) < t - now := by
    rcases div_pos_iff.mp hpos with ⟨ha, -⟩ | ⟨-, hb⟩
    · exact_mod_cast ha
    · norm_num at hb
  have hge : (0 : ℤ) ≤ now - t := by
    rcases div_nonneg_iff.mp hnn with ⟨ha, -⟩ | ⟨-, hb⟩
    · exact_mod_cast ha
    · norm_num at hb
  omega

def compDisjoint : Comp :=
  { id := "U", start_date := some 1, registration_open := .valid 1800 }

/-- Witness for C10 at a concrete input: a competition opening in 30 minutes
is in the opening-soon list and not in the (empty) just-opened list. -/
theorem C10_witness : compDisjoint ∉ ([] : List Comp) :=
  C10_window_results_disjoint [compDisjoint] [] 0 0 [compDisjoint] []
    (by norm_num [detect_registration_opening_soon, compDisjoint, regLookup,
      dictGet, REGISTRATION_UPCOMING_WINDOW, Except.map])
    (by norm_num [detect_registration_just_opened, compDisjoint, regLookup,
      dictGet])
    compDisjoint (by simp)

def compBadStart : Comp := { id := "B8" }

def compGoodReg : Comp :=
  { id := "G8", start_date := some 5, registration_open := .valid 1800 }

/-- C8 counterexample: a batch containing an entity whose `start_date` is
missing/malformed makes both window detectors raise (the `start_date` parse
is outside the `try` block), aborting the whole batch instead of skipping the
single bad record — even though a later record would qualify. -/
theorem C8_counterexample :
    detect_registration_opening_soon [compBadStart, compGoodReg] [] 0 0
      = .error () ∧
    detect_registration_just_opened [compBadStart, compGoodReg] [] 0 0
      = .error () := ⟨rfl, rfl⟩

/-- C8 amended: only a missing or malformed `registration_open` is tolerated
per entity (the record is skipped and processing continues); a missing or
malformed `start_date` on a not-yet-notified record raises and aborts the
whole batch in both window detectors. -/
theorem C8_amended_per_entity_skip (c : Comp) (rest : List Comp)
    (tr : RegTracking) (todayD now : Int) :
    (∀ sd, c.start_date = some sd →
      (c.registration_open = .absent ∨ c.registration_open = .malformed) →
      detect_registration_opening_soon (c :: rest) tr todayD now =
        detect_registration_opening_soon rest tr todayD now ∧
      detect_registration_just_opened (c :: rest) tr todayD now =
        detect_registration_just_opened rest tr todayD now) ∧
    (c.start_date = none → (regLookup tr c.id).notified_upcoming = false →
      detect_registration_opening_soon (c :: rest) tr todayD now = .error ()) ∧
    (c.start_date = none → (regLookup tr c.id).notified_open = false →
      detect_registration_just_opened (c :: rest) tr todayD now = .error ()) := by
  refine ⟨?_, ?_, ?_⟩
  · intro sd hsd hro
    constructor
    · rw [detect_registration_opening_soon]
      by_cases h1 : (regLookup tr c.id).notified_upcoming
      · rw [if_pos h1]
      · rw [if_neg h1, hsd]
        dsimp only
        by_cases h2 : sd ≤ todayD
        · rw [if_pos h2]
        · rw [if_neg h2]
          rcases hro with hro | hro <;> rw [hro]
    · rw [detect_registration_just_opened]
      by_cases h1 : (regLookup tr c.id).notified_open
      · rw [if_pos h1]
      · rw [if_neg h1, hsd]
        dsimp only
        by_cases h2 : sd ≤ todayD
        · rw [if_pos h2]
        · rw [if_neg h2]
          rcases hro with hro | hro <;> rw [hro]
  · intro hnone hflag
    rw [detect_registration_opening_soon,
        if_neg (by rw [hflag]; exact Bool.false_ne_true), hnone]
  · intro hnone hflag
    rw [detect_registration_just_opened,
        if_neg (by rw [hflag]; exact Bool.false_ne_true), hnone]

def compSkipReg : Comp := { id := "S8", start_date := some 5 }

/-- Witness for C8 (amended) at a concrete input: a record with an absent
`registration_open` is skipped and the rest of the batch is still processed. -/
theorem C8_witness :
    detect_registration_opening_soon [compSkipReg, compGoodReg] [] 0 0 =
      detect_registration_opening_soon [compGoodReg] [] 0 0 :=
  ((C8_amended_per_entity_skip compSkipReg [compGoodReg] [] 0 0).1 5 rfl
    (Or.inl rfl)).1

/-- C2: window boundary semantics for an un-notified entity with a
strictly-future start date: `registration_open = now + window` exactly is
included in opening-soon; `now + window + 1min` is excluded; and
`registration_open = now` exactly is excluded from opening-soon but included
in just-opened (closed interval from 0 to 60 minutes after opening). -/
theorem C2_window_boundary_semantics (c : Comp) (tr : RegTracking)
    (todayD now sd : Int)
    (hup : (regLookup tr c.id).notified_upcoming = false)
    (hop : (regLookup tr c.id).notified_open = false)
    (hsd : c.start_date = some sd) (hfut : todayD < sd) :
    (c.registration_open = .valid (now + 60 * 60) →
      detect_registration_opening_soon [c] tr todayD now = .ok [c]) ∧
    (c.registration_open = .valid (now + 61 * 60) →
      detect_registration_opening_soon [c] tr todayD now = .ok []) ∧
    (c.registration_open = .valid now →
      detect_registration_opening_soon [c] tr todayD now = .ok [] ∧
      detect_registration_just_opened [c] tr todayD now = .ok [c]) := by
  refine ⟨?_, ?_, ?_⟩
  · intro hreg
    have hq : ((now + 60 * 60 - now : ℤ) : ℚ) = 3600 := by push_cast; ring
    rw [detect_registration_opening_soon,
        if_neg (by rw [hup]; exact Bool.false_ne_true), hsd]
    dsimp only
    rw [if_neg (by omega), hreg]
    dsimp only
    have hcond : 0 < ((now + 60 * 60 - now : ℤ) : ℚ) / 60 ∧
        ((now + 60 * 60 - now : ℤ) : ℚ) / 60 ≤ REGISTRATION_UPCOMING_WINDOW := by
      rw [hq]
      norm_num [REGISTRATION_UPCOMING_WINDOW]
    rw [if_pos hcond, detect_registration_opening_soon]
    rfl
  · intro hreg
    have hq : ((now + 61 * 60 - now : ℤ) : ℚ) = 3660 := by push_cast; ring
    rw [detect_registration_opening_soon,
        if_neg (by rw [hup]; exact Bool.false_ne_true), hsd]
    dsimp only
    rw [if_neg (by omega), hreg]
    dsimp only
    have hcond : ¬(0 < ((now + 61 * 60 - now : ℤ) : ℚ) / 60 ∧
        ((now + 61 * 60 - now : ℤ) : ℚ) / 60 ≤ REGISTRATION_UPCOMING_WINDOW) := by
      rw [hq]
      norm_num [REGISTRATION_UPCOMING_WINDOW]
    rw [if_neg hcond, detect_registration_opening_soon]
  · intro hreg
    have hq : ((now - now : ℤ) : ℚ) = 0 := by push_cast; ring
    constructor
    · rw [detect_registration_opening_soon,
          if_neg (by rw [hup]; exact Bool.false_ne_true), hsd]
      dsimp only
      rw [if_neg (by omega), hreg]
      dsimp only
      have hcond : ¬(0 < ((now - now : ℤ) : ℚ) / 60 ∧
          ((now - now : ℤ) : ℚ) / 60 ≤ REGISTRATION_UPCOMING_WINDOW) := by
        rw [hq]
        norm_num
      rw [if_neg hcond, detect_registration_opening_soon]
    · rw [detect_registration_just_opened,
          if_neg (by rw [hop]; exact Bool.false_ne_true), hsd]
      dsimp only
      rw [if_neg (by omega), hreg]
      dsimp only
      have hcond : 0 ≤ ((now - now : ℤ) : ℚ) / 60 ∧
          ((now - now : ℤ) : ℚ) / 60 ≤ 60 := by
        rw [hq]
        norm_num
      rw [if_pos hcond, detect_registration_just_opened]
      rfl

def compBoundary : Comp :=
  { id := "C2", start_date := some 1, registration_open := .valid 3600 }

/-- Witness for C2 at a concrete input: registration opening exactly 60
minutes from now is reported as opening soon. -/
theorem C2_witness :
    detect_registration_opening_soon [compBoundary] [] 0 0 = .ok [compBoundary] :=
  (C2_window_boundary_semantics compBoundary [] 0 0 1 rfl rfl rfl
    (by norm_num)).1 (by norm_num [compBoundary])

/-- C7: for a capacity-limited, un-notified, not-yet-started entity whose
occupancy lookup succeeds, `detect_limited_spots` always refreshes
`last_count` and `limit` in the ledger it threads to the rest of the batch
(hence into the final tracking state), independently of the threshold, and
the entity is prepended to the result exactly when the fill ratio is at or
above the threshold. -/
theorem C7_capacity_refresh_and_threshold (c : Comp) (rest : List Comp)
    (tr : SpotsTracking) (todayD : Int) (counts : Comp → Option Nat)
    (sd : Int) (lim cnt : Nat)
    (h1 : (spotsLookup tr c.id).notified = false)
    (h2 : c.start_date = some sd) (h3 : todayD < sd)
    (h4 : c.competitor_limit = some lim) (h5 : lim ≠ 0)
    (h6 : counts c = some cnt) :
    detect_limited_spots (c :: rest) tr todayD counts =
      (detect_limited_spots rest
        (dictSet tr c.id
          { spotsLookup tr c.id with last_count := some cnt, limit := some lim })
        todayD counts).map
        (fun p =>
          ((if SPOTS_WARNING_THRESHOLD ≤ (cnt : ℚ) / (lim : ℚ) then
              [{ comp := c, current_count := cnt,
                 percentage_filled := (cnt : ℚ) / (lim : ℚ) }]
            else []) ++ p.1, p.2)) := by
  rw [detect_limited_spots, if_neg (by rw [h1]; exact Bool.false_ne_true), h2]
  dsimp only
  rw [if_neg (by omega), h4]
  dsimp only
  rw [if_neg h5, h6]
  dsimp only
  by_cases h7 : SPOTS_WARNING_THRESHOLD ≤ (cnt : ℚ) / (lim : ℚ)
  · rw [if_pos h7]
    cases detect_limited_spots rest
        (dictSet tr c.id
          { spotsLookup tr c.id with last_count := some cnt, limit := some lim })
        todayD counts with
    | error e => rfl
    | ok p => simp [Except.map, h7]
  · rw [if_neg h7]
    cases detect_limited_spots rest
        (dictSet tr c.id
          { spotsLookup tr c.id with last_count := some cnt, limit := some lim })
        todayD counts with
    | error e => rfl
    | ok p => simp [Except.map, h7]

def compBelowThreshold : Comp :=
  { id := "C7", start_date := some 5, competitor_limit := some 10 }

/-- Witness for C7 at a concrete input: a lookup returning 5 of 10 spots
(below the 0.80 threshold) still refreshes the ledger and adds nothing to the
result. -/
theorem C7_witness :
    detect_limited_spots [compBelowThreshold] [] 0 (fun _ => some 5) =
      (detect_limited_spots []
        (dictSet [] compBelowThreshold.id
          { spotsLookup [] compBelowThreshold.id with
            last_count := some 5, limit := some 10 })
        0 (fun _ => some 5)).map
        (fun p =>
          ((if SPOTS_WARNING_THRESHOLD ≤ (5 : ℚ) / (10 : ℚ) then
              [{ comp := compBelowThreshold, current_count := 5,
                 percentage_filled := (5 : ℚ) / (10 : ℚ) }]
            else []) ++ p.1, p.2)) :=
  C7_capacity_refresh_and_threshold compBelowThreshold [] [] 0 (fun _ => some 5)
    5 10 5 rfl rfl (by norm_num) rfl (by norm_num) rfl

theorem save_competitions_of_new (store1 fetch : List Comp)
    (h : detect_new_competitions fetch store1 ≠ []) :
    (save_competitions store1 fetch).1 = fetch := by
  rw [save_competitions, if_neg]
  intro hset
  rw [idSetEq, decide_eq_true_eq] at hset
  obtain ⟨c, hc⟩ := List.exists_mem_of_ne_nil _ h
  have hmem := List.mem_filter.mp hc
  have hnot := hmem.2
  simp only [decide_eq_true_eq] at hnot
  exact hnot (hset.2 c.id (List.mem_map_of_mem Comp.id hmem.1))

/-- C9: when new entities are detected, the snapshot store is overwritten
with the full fetched snapshot regardless of the dispatch outcome — the run
result does not depend on `notifyNew` at all (Python ignores the returned
booleans), and new-entity notifications have no ledger flag to gate. -/
theorem C9_snapshot_saved_despite_dispatch_failure (st : RunState)
    (todayD now : Int) (fetch : List Comp) (counts : Comp → Option Nat)
    (notifyNew notifyNew' : List Comp → Bool) (nU nO : Comp → Bool)
    (nS : AlmostFullItem → Bool) (s' : RunState) (ev : RunEvents)
    (h : runMain st todayD now fetch counts notifyNew nU nO nS = .ok (s', ev))
    (hne : ev.newComps ≠ []) :
    s'.store = fetch ∧
    runMain st todayD now fetch counts notifyNew' nU nO nS = .ok (s', ev) := by
  refine ⟨?_, h⟩
  obtain ⟨store1, reg1, spots1, hc, hr, hs, hcase⟩ :=
    runMain_ok st todayD now fetch counts notifyNew nU nO nS s' ev h
  rcases hcase with ⟨-, -, hev⟩ | ⟨-, up, jo, li, sp2, -, -, -, hev, hs'⟩
  · subst hev
    exact absurd rfl hne
  · subst hev hs'
    dsimp only at hne ⊢
    rw [if_neg (fun hemp => hne (List.isEmpty_iff.mp hemp))]
    exact save_competitions_of_new store1 fetch hne

def compNew9 : Comp := { id := "N9", start_date := some 2, end_date := some 3 }

/-- Witness for C9 at a concrete input: with every dispatcher failing, a run
that detects a new competition still saves it into the snapshot store. -/
theorem C9_witness :
    ({ store := [compNew9], regTracking := [], spotsTracking := [] } :
        RunState).store = [compNew9] ∧
    runMain ⟨[], [], []⟩ 0 0 [compNew9] (fun _ => none) (fun _ => true)
        (fun _ => false) (fun _ => false) (fun _ => false) =
      .ok (⟨[compNew9], [], []⟩, ⟨[compNew9], [], [], []⟩) :=
  C9_snapshot_saved_despite_dispatch_failure ⟨[], [], []⟩ 0 0 [compNew9]
    (fun _ => none) (fun _ => false) (fun _ => true) (fun _ => false)
    (fun _ => false) (fun _ => false) ⟨[compNew9], [], []⟩
    ⟨[compNew9], [], [], []⟩ rfl (by decide)

def compA5 : Comp := { id := "A5", start_date := some 2, end_date := some 3 }

def compB5 : Comp := { id := "B5", start_date := some 2, end_date := some 3 }

/-- C5 counterexample: a successful run whose non-empty fetch contains only
`A5` while the store holds `A5` and `B5` detects no new id, so
`save_competitions` is never invoked: the store's key set stays
`{A5, B5}` and does not shrink to the fetched key set `{A5}`. -/
theorem C5_counterexample :
    (runMain ⟨[compA5, compB5], [], []⟩ 0 0 [compA5] (fun _ => none)
        (fun _ => false) (fun _ => false) (fun _ => false)
        (fun _ => false)).map (fun p => compIds p.1.store)
      = .ok ["A5", "B5"] ∧
    compIds [compA5] = ["A5"] := ⟨rfl, rfl⟩

/-- C5 amended: the store's key set equals the fetched snapshot's key set
only after runs in which at least one new id was detected (then the whole
fetched list is written); when no new id appears — in particular when ids
merely disappear from the fetch — the store keeps the swept previous
snapshot unchanged. -/
theorem C5_amended_store_overwrite (st : RunState) (todayD now : Int)
    (fetch : List Comp) (counts : Comp → Option Nat)
    (nN : List Comp → Bool) (nU nO : Comp → Bool) (nS : AlmostFullItem → Bool)
    (s' : RunState) (ev : RunEvents)
    (h : runMain st todayD now fetch counts nN nU nO nS = .ok (s', ev)) :
    (ev.newComps ≠ [] → s'.store = fetch) ∧
    (ev.newComps = [] → clean_old_competitions st.store todayD = .ok s'.store) := by
  obtain ⟨store1, reg1, spots1, hc, hr, hs, hcase⟩ :=
    runMain_ok st todayD now fetch counts nN nU nO nS s' ev h
  rcases hcase with ⟨-, hs', hev⟩ | ⟨-, up, jo, li, sp2, -, -, -, hev, hs'⟩
  · subst hs' hev
    exact ⟨fun hne => absurd rfl hne, fun _ => hc⟩
  · subst hs' hev
    dsimp only
    constructor
    · intro hne
      rw [if_neg (fun hemp => hne (List.isEmpty_iff.mp hemp))]
      exact save_competitions_of_new store1 fetch hne
    · intro hnil
      rw [if_pos (by rw [hnil]; rfl)]
      exact hc

/-- Witness for C5 (amended) at a concrete input: the disappearing-id run of
the counterexample leaves the store equal to the swept previous snapshot. -/
theorem C5_witness :
    clean_old_competitions
      ({ store := [compA5, compB5], regTracking := [],
         spotsTracking := [] } : RunState).store 0 = .ok [compA5, compB5] :=
  (C5_amended_store_overwrite ⟨[compA5, compB5], [], []⟩ 0 0 [compA5]
    (fun _ => none) (fun _ => false) (fun _ => false) (fun _ => false)
    (fun _ => false) ⟨[compA5, compB5], [], []⟩ ⟨[], [], [], []⟩ rfl).2 rfl

def compX6 : Comp := { id := "X6", start_date := some 5, end_date := some 9 }

/-- C6 counterexample: the ledger-pruning step derives the future-id set
from the persisted snapshot before the fetch.  With an empty store, a ledger
entry for `X6` is pruned even though `X6` is present in the current fetch
with a strictly-future start date — contradicting the claim that retention
is computed from the post-fetch snapshot. -/
theorem C6_counterexample :
    (runMain ⟨[], [("X6", { notified_upcoming := true, notified_open := true })],
        []⟩ 0 0 [compX6] (fun _ => none) (fun _ => false) (fun _ => false)
        (fun _ => false) (fun _ => false)).map (fun p => p.1.regTracking)
      = .ok [] ∧
    compX6.id = "X6" ∧ compX6.start_date = some 5 ∧ (0 : Int) < 5 :=
  ⟨rfl, rfl, rfl, by norm_num⟩

/-- C6 amended: ledger retention is computed from the persisted (and
end-date-swept) snapshot *before* the fetch: both cleaning functions keep
exactly the entries whose id is a future id of the snapshot they are given,
and in a full run (dispatchers failing, so no flag writes interfere) a key
outside the future ids of the swept persisted store is absent from the
registration ledger afterwards, regardless of the fetch contents. -/
theorem C6_amended_retention_from_persisted :
    (∀ (tr : RegTracking) (comps : List Comp) (todayD : Int)
        (tr' : RegTracking) (ids : List String),
      futureCompIds comps todayD = .ok ids →
      clean_old_registration_tracking tr comps todayD = .ok tr' →
      ∀ k, dictGet tr' k = if ids.contains k then dictGet tr k else none) ∧
    (∀ (tr : SpotsTracking) (comps : List Comp) (todayD : Int)
        (tr' : SpotsTracking) (ids : List String),
      futureCompIds comps todayD = .ok ids →
      clean_old_spots_tracking tr comps todayD = .ok tr' →
      ∀ k, dictGet tr' k = if ids.contains k then dictGet tr k else none) ∧
    (∀ (st : RunState) (todayD now : Int) (fetch : List Comp)
        (counts : Comp → Option Nat) (nN : List Comp → Bool)
        (nS : AlmostFullItem → Bool) (s' : RunState) (ev : RunEvents)
        (k : String) (store1 : List Comp) (ids : List String),
      runMain st todayD now fetch counts nN (fun _ => false) (fun _ => false)
          nS = .ok (s', ev) →
      clean_old_competitions st.store todayD = .ok store1 →
      futureCompIds store1 todayD = .ok ids →
      ids.contains k = false →
      dictGet s'.regTracking k = none) := by
  have hreg : ∀ (tr : RegTracking) (comps : List Comp) (todayD : Int)
      (tr' : RegTracking) (ids : List String),
      futureCompIds comps todayD = .ok ids →
      clean_old_registration_tracking tr comps todayD = .ok tr' →
      ∀ k, dictGet tr' k = if ids.contains k then dictGet tr k else none := by
    intro tr comps todayD tr' ids hids hclean k
    rw [clean_old_registration_tracking, hids] at hclean
    cases hclean
    exact dictGet_filter tr (fun s => ids.contains s) k
  refine ⟨hreg, ?_, ?_⟩
  · intro tr comps todayD tr' ids hids hclean k
    rw [clean_old_spots_tracking, hids] at hclean
    cases hclean
    exact dictGet_filter tr (fun s => ids.contains s) k
  · intro st todayD now fetch counts nN nS s' ev k store1 ids h hc hids hk
    obtain ⟨store1', reg1, spots1, hc', hr, hs, hcase⟩ :=
      runMain_ok st todayD now fetch counts nN (fun _ => false) (fun _ => false)
        nS s' ev h
    rw [hc] at hc'
    cases hc'
    have hval := hreg st.regTracking store1 todayD reg1 ids hids hr k
    rw [hk] at hval
    simp only [Bool.false_eq_true, if_false] at hval
    rcases hcase with ⟨-, hs', -⟩ | ⟨-, up, jo, li, sp2, -, -, -, -, hs'⟩
    · subst hs'
      exact hval
    · subst hs'
      dsimp only
      rw [processUpcoming_const_false, processOpen_const_false]
      exact hval

/-- Witness for C6 (amended) at a concrete input: the pruned ledger of the
counterexample run no longer holds the entry for `X6`. -/
theorem C6_witness :
    dictGet
      (({ store := [compX6], regTracking := [], spotsTracking := [] } :
        RunState).regTracking) "Z6" = none :=
  C6_amended_retention_from_persisted.2.2
    ⟨[], [("Z6", { notified_upcoming := true, notified_open := true })], []⟩
    0 0 [compX6] (fun _ => none) (fun _ => false) (fun _ => false)
    ⟨[compX6], [], []⟩ ⟨[compX6], [], [], []⟩ "Z6" [] [] rfl rfl rfl rfl

theorem redetect_opening_soon (comps : List Comp) (tr tr' : RegTracking)
    (todayD now : Int) (res res' : List Comp) (c : Comp)
    (h : detect_registration_opening_soon comps tr todayD now = .ok res)
    (hc : c ∈ res)
    (hflag : (regLookup tr' c.id).notified_upcoming = false)
    (h' : detect_registration_opening_soon comps tr' todayD now = .ok res') :
    c ∈ res' := by
  have hm := (mem_opening_soon_iff comps tr todayD now res h c).mp hc
  refine (mem_opening_soon_iff comps tr' todayD now res' h' c).mpr ⟨hm.1, ?_⟩
  have hcond := hm.2
  unfold upcomingCond at hcond ⊢
  exact ⟨hflag, hcond.2.1, hcond.2.2⟩

theorem redetect_just_opened (comps : List Comp) (tr tr' : RegTracking)
    (todayD now : Int) (res res' : List Comp) (c : Comp)
    (h : detect_registration_just_opened comps tr todayD now = .ok res)
    (hc : c ∈ res)
    (hflag : (regLookup tr' c.id).notified_open = false)
    (h' : detect_registration_just_opened comps tr' todayD now = .ok res') :
    c ∈ res' := by
  have hm := (mem_just_opened_iff comps tr todayD now res h c).mp hc
  refine (mem_just_opened_iff comps tr' todayD now res' h' c).mpr ⟨hm.1, ?_⟩
  have hcond := hm.2
  unfold justOpenedCond at hcond ⊢
  exact ⟨hflag, hcond.2.1, hcond.2.2⟩

def compC1 : Comp :=
  { id := "X1", start_date := some 5, end_date := some 9,
    competitor_limit := some 10 }

/-- C1 counterexample: in a run where every configured channel fails for a
detected capacity alert, the spots-ledger entry is *not* left unchanged:
`detect_limited_spots` refreshes its `last_count` (5 → 9) before the
dispatch attempt, and the run persists the refreshed entry even though the
alert for `X1` was undelivered. -/
theorem C1_counterexample :
    (runMain ⟨[compC1], [],
        [("X1", { notified := false, last_count := some 5, limit := some 10 })]⟩
        0 0 [compC1] (fun _ => some 9) (fun _ => false) (fun _ => false)
        (fun _ => false) (fun _ => false)).map
      (fun p => (dictGet p.1.spotsTracking "X1",
                 p.2.limited.map (fun it => it.comp.id)))
      = .ok (some { notified := false, last_count := some 9, limit := some 10 },
             ["X1"]) ∧
    ({ notified := false, last_count := some 9, limit := some 10 } : SpotsEntry)
      ≠ { notified := false, last_count := some 5, limit := some 10 } := by
  constructor
  · norm_num [runMain, clean_old_competitions, clean_old_registration_tracking,
      clean_old_spots_tracking, futureCompIds, detect_new_competitions, compIds,
      save_competitions, idSetEq, detect_registration_opening_soon,
      detect_registration_just_opened, detect_limited_spots, processUpcoming,
      processOpen, processSpots, regLookup, spotsLookup, dictGet, dictSet,
      Except.map, compC1, SPOTS_WARNING_THRESHOLD]
  · decide

/-- C1 amended: every notification *flag* is committed only on dispatch
success — when every channel fails the three commit loops leave the ledgers
untouched, a successful dispatch sets exactly the corresponding flag, a
record none of whose dispatches succeed keeps its ledger entry unchanged by
the commit loops, and an event undelivered because its flag is still false
is detected again by a later identical detector call; however, for capacity
alerts the spots entry itself is still refreshed (`last_count`/`limit`)
during detection regardless of the dispatch outcome. -/
theorem C1_amended_flag_commit_gating :
    (∀ (l : List Comp) (tr : RegTracking),
      processUpcoming (fun _ => false) l tr = tr) ∧
    (∀ (l : List Comp) (tr : RegTracking),
      processOpen (fun _ => false) l tr = tr) ∧
    (∀ (l : List AlmostFullItem) (tr : SpotsTracking),
      processSpots (fun _ => false) l tr = tr) ∧
    (∀ (notify : Comp → Bool) (l : List Comp) (tr : RegTracking) (c : Comp),
      c ∈ l → notify c = true →
      (regLookup (processUpcoming notify l tr) c.id).notified_upcoming = true) ∧
    (∀ (notify : Comp → Bool) (l : List Comp) (tr : RegTracking) (c : Comp),
      c ∈ l → notify c = true →
      (regLookup (processOpen notify l tr) c.id).notified_open = true) ∧
    (∀ (notify : AlmostFullItem → Bool) (l : List AlmostFullItem)
        (tr : SpotsTracking) (it : AlmostFullItem), it ∈ l → notify it = true →
      (spotsLookup (processSpots notify l tr) it.comp.id).notified = true) ∧
    (∀ (notify : Comp → Bool) (l : List Comp) (tr : RegTracking) (k : String),
      (∀ c ∈ l, c.id = k → notify c = false) →
      dictGet (processUpcoming notify l tr) k = dictGet tr k) ∧
    (∀ (notify : Comp → Bool) (l : List Comp) (tr : RegTracking) (k : String),
      (∀ c ∈ l, c.id = k → notify c = false) →
      dictGet (processOpen notify l tr) k = dictGet tr k) ∧
    (∀ (notify : AlmostFullItem → Bool) (l : List AlmostFullItem)
        (tr : SpotsTracking) (k : String),
      (∀ it ∈ l, it.comp.id = k → notify it = false) →
      dictGet (processSpots notify l tr) k = dictGet tr k) ∧
    (∀ (comps : List Comp) (tr tr' : RegTracking) (todayD now : Int)
        (res res' : List Comp) (c : Comp),
      detect_registration_opening_soon comps tr todayD now = .ok res →
      c ∈ res → (regLookup tr' c.id).notified_upcoming = false →
      detect_registration_opening_soon comps tr' todayD now = .ok res' →
      c ∈ res') ∧
    (∀ (comps : List Comp) (tr tr' : RegTracking) (todayD now : Int)
        (res res' : List Comp) (c : Comp),
      detect_registration_just_opened comps tr todayD now = .ok res →
      c ∈ res → (regLookup tr' c.id).notified_open = false →
      detect_registration_just_opened comps tr' todayD now = .ok res' →
      c ∈ res') :=
  ⟨processUpcoming_const_false, processOpen_const_false,
   processSpots_const_false, processUpcoming_sets, processOpen_sets,
   processSpots_sets, processUpcoming_untouched, processOpen_untouched,
   processSpots_untouched, redetect_opening_soon, redetect_just_opened⟩

def compW1 : Comp := { id := "W1" }

/-- Witness for C1 (amended) at a concrete input: a successful dispatch for
`W1` commits `notified_upcoming` in the registration ledger. -/
theorem C1_witness :
    (regLookup (processUpcoming (fun _ => true) [compW1] [])
      compW1.id).notified_upcoming = true :=
  C1_amended_flag_commit_gating.2.2.2.1 (fun _ => true) [compW1] [] compW1
    (List.mem_singleton.mpr rfl) rfl

def compX4 : Comp :=
  { id := "X4", start_date := some 10, end_date := some 11,
    competitor_limit := some 10 }

def compY4 : Comp := { id := "Y4", start_date := some 10, end_date := some 11 }

def counts4 : Comp → Option Nat := fun c => if c.id = "X4" then some 9 else none

/-- Run 1: `X4` is fetched for the first time, fires a capacity alert
(9 of 10 spots) which is dispatched successfully. -/
def run4a : Except Unit (RunState × RunEvents) :=
  runMain ⟨[], [], []⟩ 0 0 [compX4] counts4 (fun _ => true) (fun _ => true)
    (fun _ => true) (fun _ => true)

def state4a : RunState := ((run4a.map Prod.fst).toOption).getD ⟨[], [], []⟩

/-- Run 2: a flaky fetch omits `X4` and reports a new competition `Y4`, so
the snapshot store is overwritten with `[Y4]` while the spots ledger still
carries the `notified = true` entry for `X4`. -/
def run4b : Except Unit (RunState × RunEvents) :=
  runMain state4a 0 0 [compY4] counts4 (fun _ => true) (fun _ => true)
    (fun _ => true) (fun _ => true)

def state4b : RunState := ((run4b.map Prod.fst).toOption).getD ⟨[], [], []⟩

/-- Run 3: `X4` reappears in the fetch; the sweep (which reads the persisted
snapshot, now `[Y4]`) prunes the `X4` ledger entry, and the alert fires
again. -/
def run4c : Except Unit (RunState × RunEvents) :=
  runMain state4b 0 0 [compX4, compY4] counts4 (fun _ => true) (fun _ => true)
    (fun _ => true) (fun _ => true)

/-- C4 counterexample: after run 1 the `notified` flag for `X4` is true, the
flag is still recorded entering run 3, yet run 3's `detect_limited_spots`
includes `X4` again (its ledger entry was pruned by the sweep because `X4`
was missing from the persisted snapshot), so the entity is *not* one-shot
across runs as the claim states. -/
theorem C4_counterexample :
    (run4a.map (fun p => (spotsLookup p.1.spotsTracking "X4").notified))
      = .ok true ∧
    (spotsLookup state4b.spotsTracking "X4").notified = true ∧
    (run4c.map (fun p => p.2.limited.map (fun it => it.comp.id)))
      = .ok ["X4"] := by
  refine ⟨?_, ?_, ?_⟩ <;>
    norm_num [run4a, run4b, run4c, state4a, state4b, runMain,
      clean_old_competitions, clean_old_registration_tracking,
      clean_old_spots_tracking, futureCompIds, detect_new_competitions,
      compIds, save_competitions, idSetEq, detect_registration_opening_soon,
      detect_registration_just_opened, detect_limited_spots, processUpcoming,
      processOpen, processSpots, regLookup, spotsLookup, dictGet, dictSet,
      Except.map, Except.toOption, Option.getD, compX4, compY4, counts4,
      SPOTS_WARNING_THRESHOLD]

/-- C4 amended: the capacity alert is one-shot as long as the ledger entry
survives: while `notified` is recorded true, `detect_limited_spots` never
includes the entity and leaves the flag true, the dispatch-commit loop never
clears a true flag, and the retention sweep never alters a stored entry —
it either keeps it verbatim or deletes it wholesale (deletion happens when
the entity is absent from the persisted snapshot, after which the alert can
fire afresh, as the counterexample run shows). -/
theorem C4_amended_one_shot (cid : String) :
    (∀ (comps : List Comp) (tr : SpotsTracking) (todayD : Int)
        (counts : Comp → Option Nat) (res : List AlmostFullItem)
        (tr' : SpotsTracking),
      detect_limited_spots comps tr todayD counts = .ok (res, tr') →
      (spotsLookup tr cid).notified = true →
      (∀ it ∈ res, it.comp.id ≠ cid) ∧ (spotsLookup tr' cid).notified = true) ∧
    (∀ (notify : AlmostFullItem → Bool) (l : List AlmostFullItem)
        (tr : SpotsTracking), (spotsLookup tr cid).notified = true →
      (spotsLookup (processSpots notify l tr) cid).notified = true) ∧
    (∀ (tr : SpotsTracking) (comps : List Comp) (todayD : Int)
        (tr' : SpotsTracking),
      clean_old_spots_tracking tr comps todayD = .ok tr' →
      dictGet tr' cid = none ∨ dictGet tr' cid = dictGet tr cid) := by
  refine ⟨?_, fun notify l tr h => processSpots_flag_mono notify l tr cid h, ?_⟩
  · intro comps tr todayD counts res tr' h hflag
    constructor
    · intro it hit hid
      have hfalse := mem_limited_spots_not_notified comps tr todayD counts res
        tr' h it hit
      rw [hid] at hfalse
      rw [hfalse] at hflag
      cases hflag
    · rw [detect_limited_spots_preserves_notified comps tr todayD counts res
        tr' h cid]
      exact hflag
  · intro tr comps todayD tr' hclean
    rw [clean_old_spots_tracking] at hclean
    cases hids : futureCompIds comps todayD with
    | error e =>
      rw [hids] at hclean
      cases hclean
    | ok ids =>
      rw [hids] at hclean
      cases hclean
      rw [dictGet_filter tr (fun s => ids.contains s) cid]
      by_cases hk : ids.contains cid
      · rw [if_pos hk]
        exact Or.inr rfl
      · rw [if_neg hk]
        exact Or.inl rfl

/-- Witness for C4 (amended) at a concrete input: the commit loop keeps a
true flag true. -/
theorem C4_witness :
    (spotsLookup (processSpots (fun _ => true) []
      [("W4", { notified := true, last_count := none, limit := none })])
      "W4").notified = true :=
  (C4_amended_one_shot "W4").2.1 (fun _ => true) []
    [("W4", { notified := true, last_count := none, limit := none })] rfl
